import Mathlib

/-!
Verification of the test-data lifecycle engine of a Playwright API test
suite: the `TestDataManager` index builder, the authenticated `ApiClient`
URL construction, the per-test fixture cleanup loops, and the response
contracts asserted by the negative coupon tests.

JavaScript values reaching the engine come from decoded JSON bodies, so we
embed them as a nested inductive `JSValue`.  Floats are abstracted to `Int`
(no test ever relies on fractional numbers or NaN), and object identity is
captured by the fact that `JSON.parse` never aliases: two object values in
an ingested payload are always distinct references, so JavaScript
`Array.prototype.includes` (SameValueZero) never identifies two
object-shaped entries.  `sameValueZero` below is accordingly structural
equality on primitives and constantly false on objects and arrays.
-/

/-- A JavaScript value as produced by `response.json()`, plus `undefined`
for absent properties. -/
inductive JSValue where
  | vNull
  | vUndefined
  | vBool (b : Bool)
  | vNum (n : Int)
  | vStr (s : String)
  | vArr (elems : List JSValue)
  | vObj (fields : List (String × JSValue))

namespace JSValue

/-- JavaScript truthiness (`if (x)`), restricted to the values we model. -/
def truthy : JSValue → Bool
  | vNull => false
  | vUndefined => false
  | vBool b => b
  | vNum n => n != 0
  | vStr s => s != ""
  | vArr _ => true
  | vObj _ => true

/-- `typeof x === "object"` — true for plain objects, arrays and `null`. -/
def typeofIsObject : JSValue → Bool
  | vNull => true
  | vArr _ => true
  | vObj _ => true
  | _ => false

/-- `Array.isArray(x)`. -/
def isArray : JSValue → Bool
  | vArr _ => true
  | _ => false

/-- Property access `x.k`: a field of an object, `undefined` otherwise. -/
def getField (v : JSValue) (k : String) : JSValue :=
  match v with
  | vObj fields => (fields.lookup k).getD vUndefined
  | _ => vUndefined

/-- The elements of an array value. -/
def arrayElems : JSValue → List JSValue
  | vArr l => l
  | _ => []

/-- `x.length` of an array value. -/
def arrayLength (v : JSValue) : Nat := (arrayElems v).length

/-- `x[0]` of an array value. -/
def arrayHead (v : JSValue) : JSValue :=
  match v with
  | vArr (x :: _) => x
  | _ => vUndefined

/-- Is the value a primitive (not an object or array)? -/
def isPrimitive : JSValue → Bool
  | vObj _ => false
  | vArr _ => false
  | _ => true

/-- Structural equality of primitive values; false whenever either side is
an object or array. -/
def primEq : JSValue → JSValue → Bool
  | vNull, vNull => true
  | vUndefined, vUndefined => true
  | vBool a, vBool b => a == b
  | vNum a, vNum b => a == b
  | vStr a, vStr b => a == b
  | _, _ => false

/-- SameValueZero, the comparison used by `Array.prototype.includes`, on
JSON-decoded data: structural on primitives, and false on objects/arrays
because `JSON.parse` never aliases, so two object values are never the
same reference. -/
def sameValueZero (a b : JSValue) : Bool := primEq a b

/-- `expect(x).toBeDefined()`. -/
def isDefined : JSValue → Bool
  | vUndefined => false
  | _ => true

/-- `x === null`. -/
def isNull : JSValue → Bool
  | vNull => true
  | _ => false

/-- `typeof x === "string"`. -/
def isStringVal : JSValue → Bool
  | vStr _ => true
  | _ => false

theorem primEq_eq {a b : JSValue} (h : primEq a b = true) : a = b := by
  cases a <;> cases b <;> simp [primEq] at h <;> simp [h]

theorem primEq_refl_of_isPrimitive {a : JSValue} (h : isPrimitive a = true) :
    primEq a a = true := by
  cases a <;> simp [primEq, isPrimitive] at h ⊢

theorem sameValueZero_symm (a b : JSValue) :
    sameValueZero a b = sameValueZero b a := by
  cases a <;> cases b <;> simp [sameValueZero, primEq] <;> exact ⟨fun h => h.symm, fun h => h.symm⟩

theorem primEq_vStr_iff (v : JSValue) (s : String) :
    primEq v (vStr s) = true ↔ v = vStr s := by
  cases v <;> simp [primEq]

theorem isNull_iff (v : JSValue) : isNull v = true ↔ v = vNull := by
  cases v <;> simp [isNull]

end JSValue

open JSValue

/-! ## Test Data Manager (src/test/utils/test-data-manager.js)

State of a `TestDataManager` instance: the three arrays `groupIds`,
`couponCodes` and `coupons`. -/

structure TDMState where
  groupIds : List JSValue
  couponCodes : List JSValue
  coupons : List JSValue

/-- The state set by the constructor and by `clear()`. -/
def initState : TDMState := ⟨[], [], []⟩

/-- `xs.includes(v)` on an array of JSON-decoded values. -/
def includesSVZ (xs : List JSValue) (v : JSValue) : Bool :=
  xs.any (fun x => sameValueZero x v)

/-- The push-if-truthy-and-new step `if (v && !xs.includes(v)) xs.push(v)`
shared by the group-id and coupon-code extraction of
`processCouponsData`. -/
def addUnique (xs : List JSValue) (v : JSValue) : List JSValue :=
  if truthy v && !includesSVZ xs v then xs ++ [v] else xs

/-- Group-relation resolution from `processCouponsData` (lines 35-38):
`typeof g === "object" && g._id ? g._id : g`. -/
def resolveGroup (g : JSValue) : JSValue :=
  if typeofIsObject g && truthy (getField g "_id") then getField g "_id" else g

/-- One iteration of the `coupons.forEach` body of `processCouponsData`:
push the record, extract the group identifier (guarded by
`if (coupon.group)`), extract the code. -/
def processCoupon (st : TDMState) (c : JSValue) : TDMState :=
  { coupons := st.coupons ++ [c]
    groupIds :=
      if truthy (getField c "group") then
        addUnique st.groupIds (resolveGroup (getField c "group"))
      else st.groupIds
    couponCodes := addUnique st.couponCodes (getField c "code") }

/-- `processCouponsData(couponsResponse)`: no-op unless
`couponsResponse` is truthy, `couponsResponse.data` is truthy and an
array; otherwise clears the three arrays and scans the list. -/
def processCouponsData (st : TDMState) (resp : JSValue) : TDMState :=
  if !truthy resp || !truthy (getField resp "data") || !isArray (getField resp "data") then
    st
  else
    (arrayElems (getField resp "data")).foldl processCoupon initState


/-! ### Characterizing the scan of `processCouponsData` -/

/-- The group-identifier values the scan considers, in scan order: one
`resolveGroup` result per record whose `group` field is truthy. -/
def groupCandidates (cs : List JSValue) : List JSValue :=
  cs.filterMap (fun c =>
    if truthy (getField c "group") then some (resolveGroup (getField c "group")) else none)

/-- The coupon-code values the scan considers, in scan order. -/
def codeCandidates (cs : List JSValue) : List JSValue :=
  cs.map (fun c => getField c "code")

theorem foldl_processCoupon_groupIds (cs : List JSValue) (st : TDMState) :
    (cs.foldl processCoupon st).groupIds =
      (groupCandidates cs).foldl addUnique st.groupIds := by
  induction cs generalizing st with
  | nil => rfl
  | cons c tl ih =>
    rw [List.foldl_cons, ih]
    by_cases h : truthy (getField c "group") = true
    · simp [groupCandidates, List.filterMap_cons, h, processCoupon]
    · simp [groupCandidates, List.filterMap_cons, h, processCoupon]

theorem foldl_processCoupon_couponCodes (cs : List JSValue) (st : TDMState) :
    (cs.foldl processCoupon st).couponCodes =
      (codeCandidates cs).foldl addUnique st.couponCodes := by
  induction cs generalizing st with
  | nil => rfl
  | cons c tl ih =>
    rw [List.foldl_cons, ih]
    simp [codeCandidates, processCoupon]

theorem foldl_processCoupon_coupons (cs : List JSValue) (st : TDMState) :
    (cs.foldl processCoupon st).coupons = st.coupons ++ cs := by
  induction cs generalizing st with
  | nil => simp
  | cons c tl ih => simp [List.foldl_cons, processCoupon, ih]

/-- When the payload's `data` field is an array, the guard of
`processCouponsData` passes, the prior state is discarded, and the result
is the scan of the array from the cleared state. -/
theorem processCouponsData_of_isArray (st : TDMState) (resp : JSValue)
    (h : isArray (getField resp "data") = true) :
    processCouponsData st resp =
      (arrayElems (getField resp "data")).foldl processCoupon initState := by
  obtain ⟨fields, rfl⟩ : ∃ fields, resp = vObj fields := by
    cases resp <;> first | exact ⟨_, rfl⟩ | simp [getField, isArray] at h
  obtain ⟨l, hl⟩ : ∃ l, getField (vObj fields) "data" = vArr l := by
    cases hg : getField (vObj fields) "data" <;> rw [hg] at h <;>
      first | exact ⟨_, rfl⟩ | simp [isArray] at h
  simp [processCouponsData, hl, truthy, isArray]

/-- When the payload's `data` field is not an array, `processCouponsData`
leaves the state untouched. -/
theorem processCouponsData_of_not_isArray (st : TDMState) (resp : JSValue)
    (h : isArray (getField resp "data") = false) :
    processCouponsData st resp = st := by
  unfold processCouponsData
  by_cases h1 : truthy resp = true
  · by_cases h2 : truthy (getField resp "data") = true <;> simp [h1, h2, h]
  · simp [h1]

/-! ### Invariants of the `addUnique` fold -/

theorem includesSVZ_eq_false_iff (xs : List JSValue) (v : JSValue) :
    includesSVZ xs v = false ↔ ∀ x ∈ xs, sameValueZero x v = false := by
  simp [includesSVZ, List.any_eq_false]

/-- `addUnique` either leaves the array alone or appends a truthy value
not yet SameValueZero-present. -/
theorem addUnique_cases (gs : List JSValue) (v : JSValue) :
    addUnique gs v = gs ∨
      (addUnique gs v = gs ++ [v] ∧ truthy v = true ∧ includesSVZ gs v = false) := by
  unfold addUnique
  by_cases hc : (truthy v && !includesSVZ gs v) = true
  · refine Or.inr ⟨if_pos hc, ?_, ?_⟩
    · have := hc; simp at this; exact this.1
    · have := hc; simp at this; exact this.2
  · exact Or.inl (if_neg hc)

theorem foldl_addUnique_shape (vs : List JSValue) (gs : List JSValue) :
    ∃ ex, vs.foldl addUnique gs = gs ++ ex ∧ List.Sublist ex vs := by
  induction vs generalizing gs with
  | nil => exact ⟨[], by simp⟩
  | cons v tl ih =>
    rw [List.foldl_cons]
    rcases addUnique_cases gs v with hl | ⟨hl, _, _⟩
    · obtain ⟨ex, hex, hsub⟩ := ih gs
      rw [hl]
      exact ⟨ex, hex, List.Sublist.cons v hsub⟩
    · obtain ⟨ex, hex, hsub⟩ := ih (gs ++ [v])
      rw [hl]
      refine ⟨v :: ex, ?_, List.Sublist.cons₂ v hsub⟩
      rw [hex]
      simp

theorem mem_of_mem_foldl_addUnique {v : JSValue} (vs gs : List JSValue)
    (h : v ∈ vs.foldl addUnique gs) : v ∈ gs ∨ v ∈ vs := by
  obtain ⟨ex, hex, hsub⟩ := foldl_addUnique_shape vs gs
  rw [hex] at h
  rcases List.mem_append.1 h with h' | h'
  · exact Or.inl h'
  · exact Or.inr (hsub.subset h')

theorem truthy_of_mem_foldl_addUnique {v : JSValue} (vs gs : List JSValue)
    (hgs : ∀ x ∈ gs, truthy x = true)
    (h : v ∈ vs.foldl addUnique gs) : truthy v = true := by
  induction vs generalizing gs with
  | nil => exact hgs v h
  | cons w tl ih =>
    rw [List.foldl_cons] at h
    refine ih (addUnique gs w) ?_ h
    intro x hx
    rcases addUnique_cases gs w with hl | ⟨hl, hw, _⟩ <;> rw [hl] at hx
    · exact hgs x hx
    · rcases List.mem_append.1 hx with h' | h'
      · exact hgs x h'
      · simp at h'
        subst h'
        exact hw

theorem pairwise_foldl_addUnique (vs gs : List JSValue)
    (hgs : gs.Pairwise (fun a b => sameValueZero a b = false)) :
    (vs.foldl addUnique gs).Pairwise (fun a b => sameValueZero a b = false) := by
  induction vs generalizing gs with
  | nil => exact hgs
  | cons w tl ih =>
    rw [List.foldl_cons]
    refine ih (addUnique gs w) ?_
    rcases addUnique_cases gs w with hl | ⟨hl, _, hninc⟩ <;> rw [hl]
    · exact hgs
    · rw [List.pairwise_append]
      refine ⟨hgs, List.pairwise_singleton _ _, ?_⟩
      intro a ha b hb
      simp at hb
      rw [hb]
      exact (includesSVZ_eq_false_iff gs w).1 hninc a ha

/-- A truthy value the array already holds stays present. -/
theorem mem_addUnique_self (gs : List JSValue) (v : JSValue)
    (ht : truthy v = true) : v ∈ addUnique gs v := by
  by_cases hc : includesSVZ gs v = true
  · obtain ⟨x, hx, hsvz⟩ : ∃ x ∈ gs, sameValueZero x v = true := by
      simpa [includesSVZ] using hc
    have hxv : x = v := primEq_eq hsvz
    subst hxv
    unfold addUnique
    split
    · exact List.mem_append.2 (Or.inl hx)
    · exact hx
  · have : addUnique gs v = gs ++ [v] := by
      unfold addUnique
      rw [if_pos]
      simp [ht, Bool.eq_false_iff.2 hc]
    rw [this]
    simp

theorem mem_foldl_addUnique_of_mem {v : JSValue} (vs gs : List JSValue)
    (hv : v ∈ vs) (ht : truthy v = true) : v ∈ vs.foldl addUnique gs := by
  induction vs generalizing gs with
  | nil => cases hv
  | cons w tl ih =>
    rw [List.foldl_cons]
    rcases List.mem_cons.1 hv with rfl | h'
    · obtain ⟨ex, hex, _⟩ := foldl_addUnique_shape tl (addUnique gs v)
      rw [hex]
      exact List.mem_append.2 (Or.inl (mem_addUnique_self gs v ht))
    · exact ih (addUnique gs w) h'

/-- Combined invariants of a fresh `addUnique` fold: entries are pairwise
SameValueZero-distinct, all truthy, a subsequence of the candidate scan
(so in first-occurrence order), and every truthy candidate is present. -/
theorem foldl_addUnique_nil_invariants (vs : List JSValue) :
    (vs.foldl addUnique []).Pairwise (fun a b => sameValueZero a b = false) ∧
    (∀ v ∈ vs.foldl addUnique [], truthy v = true) ∧
    List.Sublist (vs.foldl addUnique []) vs ∧
    (∀ v ∈ vs, truthy v = true → v ∈ vs.foldl addUnique []) := by
  refine ⟨pairwise_foldl_addUnique vs [] List.Pairwise.nil,
    fun v hv => truthy_of_mem_foldl_addUnique vs [] (by simp) hv,
    ?_, fun v hv ht => mem_foldl_addUnique_of_mem vs [] hv ht⟩
  obtain ⟨ex, hex, hsub⟩ := foldl_addUnique_shape vs []
  rw [hex]
  simpa using hsub

/-- C5: `processCouponsData` is a no-op unless the payload's `data` is an
array, and with an array payload it fully replaces the prior state: the
result is the same for every prior state. -/
theorem processCouponsData_noop_or_replaces (st st' : TDMState) (resp : JSValue) :
    (isArray (getField resp "data") = false → processCouponsData st resp = st) ∧
    (isArray (getField resp "data") = true →
      processCouponsData st resp = processCouponsData st' resp) := by
  refine ⟨processCouponsData_of_not_isArray st resp, fun h => ?_⟩
  rw [processCouponsData_of_isArray st resp h, processCouponsData_of_isArray st' resp h]

/-- A non-list payload used to exercise the no-op branch. -/
def respNonList : JSValue := vObj [("data", vStr "OK")]

/-- A list payload with a duplicated group id, a duplicated code and a
falsy (empty-string) code. -/
def respList : JSValue :=
  vObj [("status", vStr "OK"),
        ("data", vArr
          [vObj [("group", vStr "g1"), ("code", vStr "c1")],
           vObj [("group", vStr "g1"), ("code", vStr "")],
           vObj [("group", vObj [("_id", vStr "g2")]), ("code", vStr "c1")],
           vObj [("code", vStr "c2")]])]

/-- A prior manager state used to show replacement. -/
def priorState : TDMState := ⟨[vStr "old-group"], [vStr "old-code"], [vNull]⟩

/-- Witness for C5 at concrete inputs: a string-valued `data` leaves a
non-trivial prior state untouched, and a list-valued `data` erases it. -/
theorem processCouponsData_noop_or_replaces_witness :
    processCouponsData priorState respNonList = priorState ∧
    processCouponsData priorState respList = processCouponsData initState respList :=
  ⟨(processCouponsData_noop_or_replaces priorState priorState respNonList).1 rfl,
   (processCouponsData_noop_or_replaces priorState initState respList).2 rfl⟩

/-- C6: after ingesting a list payload, each index is SameValueZero
duplicate-free, holds only truthy values, is a subsequence of the scanned
candidate values (first-occurrence order), and represents every truthy
candidate. -/
theorem processCouponsData_index_invariants (st : TDMState) (resp : JSValue)
    (h : isArray (getField resp "data") = true) :
    ((processCouponsData st resp).groupIds.Pairwise
        (fun a b => sameValueZero a b = false) ∧
      (∀ v ∈ (processCouponsData st resp).groupIds, truthy v = true) ∧
      List.Sublist (processCouponsData st resp).groupIds
        (groupCandidates (arrayElems (getField resp "data"))) ∧
      (∀ v ∈ groupCandidates (arrayElems (getField resp "data")),
        truthy v = true → v ∈ (processCouponsData st resp).groupIds)) ∧
    ((processCouponsData st resp).couponCodes.Pairwise
        (fun a b => sameValueZero a b = false) ∧
      (∀ v ∈ (processCouponsData st resp).couponCodes, truthy v = true) ∧
      List.Sublist (processCouponsData st resp).couponCodes
        (codeCandidates (arrayElems (getField resp "data"))) ∧
      (∀ v ∈ codeCandidates (arrayElems (getField resp "data")),
        truthy v = true → v ∈ (processCouponsData st resp).couponCodes)) := by
  rw [processCouponsData_of_isArray st resp h]
  constructor
  · rw [foldl_processCoupon_groupIds]
    exact foldl_addUnique_nil_invariants _
  · rw [foldl_processCoupon_couponCodes]
    exact foldl_addUnique_nil_invariants _

/-- Witness for C6: the concrete list payload with duplicate and falsy
values yields a duplicate-free group index. -/
theorem processCouponsData_index_invariants_witness :
    isArray (getField respList "data") = true ∧
    (processCouponsData priorState respList).groupIds.Pairwise
      (fun a b => sameValueZero a b = false) :=
  ⟨rfl, (processCouponsData_index_invariants priorState respList rfl).1.1⟩

/-! ### C1: shape of resolved group identifiers -/

/-- An object-shaped `group` relation value that carries no `_id` field. -/
def groupWithoutId : JSValue := vObj [("name", vStr "G")]

/-- A list response whose single record has an object-shaped `group`
without an `_id`. -/
def respGroupWithoutId : JSValue :=
  vObj [("status", vStr "OK"), ("data", vArr [vObj [("group", groupWithoutId)]])]

/-- C1 counterexample: ingesting a record whose `group` is an object
without a truthy `_id` stores the object itself in the group-identifier
index, so the index can contain a non-scalar entry. -/
theorem groupIds_object_entry_counterexample :
    (processCouponsData initState respGroupWithoutId).groupIds = [groupWithoutId] ∧
    isPrimitive groupWithoutId = false :=
  ⟨rfl, rfl⟩

/-- The two group shapes for which resolution does yield a scalar: a bare
string, or an object whose `_id` is a truthy string. -/
def scalarGroupShape (g : JSValue) : Prop :=
  (∃ s, g = vStr s) ∨
    (typeofIsObject g = true ∧ ∃ s, s ≠ "" ∧ getField g "_id" = vStr s)

/-- C1 amended: whenever every truthy `group` field of the scanned records
is a bare string or an object with a truthy string `_id`, every entry of
the group-identifier index is a string (the `_id` for objects, the string
itself otherwise). -/
theorem groupIds_scalar_of_wellShaped (st : TDMState) (resp : JSValue)
    (h : isArray (getField resp "data") = true)
    (hshape : ∀ c ∈ arrayElems (getField resp "data"),
      truthy (getField c "group") = true → scalarGroupShape (getField c "group")) :
    ∀ v ∈ (processCouponsData st resp).groupIds, ∃ s, v = vStr s := by
  intro v hv
  rw [processCouponsData_of_isArray st resp h, foldl_processCoupon_groupIds] at hv
  rcases mem_of_mem_foldl_addUnique _ _ hv with h' | h'
  · simp [initState] at h'
  · obtain ⟨c, hc, hcv⟩ := List.mem_filterMap.1 h'
    by_cases hg : truthy (getField c "group") = true
    · rw [if_pos hg] at hcv
      have hres : resolveGroup (getField c "group") = v := by
        simpa using hcv
      rcases hshape c hc hg with ⟨s, hs⟩ | ⟨hobj, s, hne, hid⟩
      · refine ⟨s, ?_⟩
        rw [← hres, hs]
        simp [resolveGroup, typeofIsObject]
      · refine ⟨s, ?_⟩
        have hcond : (typeofIsObject (getField c "group") &&
            truthy (getField (getField c "group") "_id")) = true := by
          rw [hobj, hid]
          simp [truthy, hne]
        rw [← hres, resolveGroup, if_pos hcond, hid]
    · rw [if_neg hg] at hcv
      cases hcv

/-- Witness for the amended C1: on the concrete list payload, whose
groups are strings or an object with a string `_id`, every group-index
entry is a string. -/
theorem groupIds_scalar_of_wellShaped_witness :
    isArray (getField respList "data") = true ∧
    ∀ v ∈ (processCouponsData priorState respList).groupIds, ∃ s, v = vStr s := by
  refine ⟨rfl, groupIds_scalar_of_wellShaped priorState respList rfl ?_⟩
  intro c hc hg
  have hel : arrayElems (getField respList "data") =
      [vObj [("group", vStr "g1"), ("code", vStr "c1")],
       vObj [("group", vStr "g1"), ("code", vStr "")],
       vObj [("group", vObj [("_id", vStr "g2")]), ("code", vStr "c1")],
       vObj [("code", vStr "c2")]] := rfl
  rw [hel] at hc
  simp only [List.mem_cons, List.not_mem_nil, or_false] at hc
  rcases hc with rfl | rfl | rfl | rfl
  · exact Or.inl ⟨"g1", rfl⟩
  · exact Or.inl ⟨"g1", rfl⟩
  · exact Or.inr ⟨rfl, "g2", by decide, rfl⟩
  · exact absurd hg (by decide)

/-! ## Fixture cleanup (the `finally` blocks of
src/test/api/cupones/coupons-crud-negative-clean.spec.js and the
`afterAll` loop of the category suite)

Deletion via the API client may throw; we embed a throwing call as an
`Except`-valued function.  The loop body wraps each call in
`try { ... } catch (error) { logger.info(...) }`. -/

/-- One uncaught deletion attempt: propagates the client's exception. -/
def attemptDelete (deleteFn : String → Except String JSValue)
    (couponId : String) : Except String String :=
  (deleteFn couponId).map (fun _ => "Fixture eliminada: " ++ couponId)

/-- One deletion attempt as written in the `finally` block: the `catch`
turns the exception into a log line. -/
def attemptDeleteCaught (deleteFn : String → Except String JSValue)
    (couponId : String) : String :=
  match attemptDelete deleteFn couponId with
  | Except.ok line => line
  | Except.error msg => "Error limpiando fixture " ++ couponId ++ ": " ++ msg

/-- The whole cleanup pass over the tracked fixture identifiers, in the
`Except` monad of the enclosing test body: an uncaught exception anywhere
in the loop would surface as `Except.error`. -/
def cleanupLoop (ids : List String)
    (deleteFn : String → Except String JSValue) : Except String (List String) :=
  ids.foldlM (fun logs couponId => Except.ok (logs ++ [attemptDeleteCaught deleteFn couponId])) []

theorem cleanupLoop_foldlM (ids : List String)
    (deleteFn : String → Except String JSValue) (acc : List String) :
    (ids.foldlM (fun logs couponId =>
        Except.ok (logs ++ [attemptDeleteCaught deleteFn couponId])) acc :
      Except String (List String)) =
      Except.ok (acc ++ ids.map (attemptDeleteCaught deleteFn)) := by
  induction ids generalizing acc with
  | nil => simp [List.foldlM_nil]; rfl
  | cons i tl ih =>
    have hstep : (List.foldlM (fun logs couponId =>
        Except.ok (logs ++ [attemptDeleteCaught deleteFn couponId])) acc (i :: tl) :
        Except String (List String)) =
        List.foldlM (fun logs couponId =>
          Except.ok (logs ++ [attemptDeleteCaught deleteFn couponId]))
          (acc ++ [attemptDeleteCaught deleteFn i]) tl := rfl
    rw [hstep, ih]
    simp

/-- C7: for every tracked identifier sequence and every pattern of
deletion outcomes, the cleanup pass completes without propagating any
exception, attempts exactly one deletion per tracked identifier in
order, and a failed deletion contributes only a warning log line. -/
theorem cleanupLoop_never_fails (ids : List String)
    (deleteFn : String → Except String JSValue) :
    cleanupLoop ids deleteFn =
      Except.ok (ids.map (fun couponId =>
        match deleteFn couponId with
        | Except.ok _ => "Fixture eliminada: " ++ couponId
        | Except.error msg => "Error limpiando fixture " ++ couponId ++ ": " ++ msg)) := by
  rw [cleanupLoop, cleanupLoop_foldlM]
  simp only [List.nil_append]
  have hfun : attemptDeleteCaught deleteFn = fun couponId =>
      match deleteFn couponId with
      | Except.ok _ => "Fixture eliminada: " ++ couponId
      | Except.error msg => "Error limpiando fixture " ++ couponId ++ ": " ++ msg := by
    funext couponId
    rw [attemptDeleteCaught, attemptDelete]
    cases deleteFn couponId <;> simp [Except.map]
  rw [hfun]

/-! ## Response envelopes and the assertions of the negative tests -/

/-- The normalized `{status, data}` result returned by the API client:
transport status plus the decoded JSON body. -/
structure HttpResponse where
  status : Nat
  data : JSValue

/-- `pat` occurs as a contiguous run of `target` (Jest `toContain` on
strings). -/
def listIsInfixOf (pat : List Char) : List Char → Bool
  | [] => pat.isEmpty
  | c :: cs => pat.isPrefixOf (c :: cs) || listIsInfixOf pat cs

/-- `expect(v).toContain(pat)` where `v` is expected to be a string. -/
def strContainsSub (v : JSValue) (pat : String) : Bool :=
  match v with
  | vStr s => listIsInfixOf pat.toList s.toList
  | _ => false

/-- The assertions TC-NEG-001 applies to the duplicate-creation response
(coupons-crud-negative-clean.spec.js lines 174-177): transport 400,
domain "ERROR", defined payload equal to "COUPON_CODE_ALREADY_EXISTS". -/
def tcNeg001DuplicateCheck (r : HttpResponse) : Bool :=
  r.status == 400 &&
  primEq (getField r.data "status") (vStr "ERROR") &&
  isDefined (getField r.data "data") &&
  primEq (getField r.data "data") (vStr "COUPON_CODE_ALREADY_EXISTS")

/-- The assertions TC-NEG-002 applies to the non-reusable duplicate-code
creation response (lines 258-269): transport 200, domain "OK", non-empty
array payload whose first record carries a defined string `code` different
from the requested existing code. -/
def tcNeg002Check (r : HttpResponse) (existingCode : String) : Bool :=
  r.status == 200 &&
  primEq (getField r.data "status") (vStr "OK") &&
  isArray (getField r.data "data") &&
  decide (0 < arrayLength (getField r.data "data")) &&
  !primEq (getField (arrayHead (getField r.data "data")) "code") (vStr existingCode) &&
  isDefined (getField (arrayHead (getField r.data "data")) "code") &&
  isStringVal (getField (arrayHead (getField r.data "data")) "code")

/-- The assertions TC-NEG-005 applies to the duplicate-code update
response (lines 531-544): transport 200, domain "OK", the record's `code`
still the original and not the requested one, same `_id`, `detail`
containing the submitted marker, `amount` updated to the number 20. -/
def tcNeg005Check (r : HttpResponse)
    (originalCode existingCode createdId : String) : Bool :=
  r.status == 200 &&
  primEq (getField r.data "status") (vStr "OK") &&
  isDefined (getField r.data "data") &&
  primEq (getField (getField r.data "data") "code") (vStr originalCode) &&
  !primEq (getField (getField r.data "data") "code") (vStr existingCode) &&
  primEq (getField (getField r.data "data") "_id") (vStr createdId) &&
  strContainsSub (getField (getField r.data "data") "detail") "Código Duplicado" &&
  primEq (getField (getField r.data "data") "amount") (vNum 20)

/-- The assertions TC-NEG-006 applies to a GET on a never-created coupon
identifier (lines 599-601): transport 200, domain "ERROR", null payload. -/
def tcNeg006Check (r : HttpResponse) : Bool :=
  r.status == 200 &&
  primEq (getField r.data "status") (vStr "ERROR") &&
  isNull (getField r.data "data")

/-- The assertions TC-CATEGORIA-011 applies to a GET on a never-created
category identifier (src/unnamed/part_002 lines 459-480): status must be
404 or 200, and only in the 200 case must the payload be null. -/
def tcCategoria011Check (r : HttpResponse) : Bool :=
  (r.status == 404 || r.status == 200) &&
  (if r.status == 404 then true
   else if r.status == 200 then isNull (getField r.data "data")
   else true)

/-- A transport-404 not-found response. -/
def respNotFound404 : HttpResponse := { status := 404, data := vNull }

/-- C4 counterexample: the category not-found test accepts a transport
404 response outright, so the claimed uniform 200+ERROR+null contract
fails across entity kinds. -/
theorem notFound_contract_counterexample :
    tcCategoria011Check respNotFound404 = true ∧ respNotFound404.status ≠ 200 :=
  ⟨rfl, by decide⟩

/-- C4 amended: the coupon not-found check accepts exactly transport 200
with domain "ERROR" and null payload, while the category not-found check
accepts exactly a transport 404 (payload unconstrained) or a transport
200 with null payload (domain tag unchecked). -/
theorem notFound_contracts_characterization (r : HttpResponse) :
    (tcNeg006Check r = true ↔
      r.status = 200 ∧ getField r.data "status" = vStr "ERROR" ∧
        getField r.data "data" = vNull) ∧
    (tcCategoria011Check r = true ↔
      r.status = 404 ∨ (r.status = 200 ∧ getField r.data "data" = vNull)) := by
  constructor
  · simp [tcNeg006Check, primEq_vStr_iff, isNull_iff, and_assoc]
  · by_cases h4 : r.status = 404
    · simp [tcCategoria011Check, h4]
    · by_cases h2 : r.status = 200
      · simp [tcCategoria011Check, h4, h2, isNull_iff]
      · simp [tcCategoria011Check, h4, h2]

/-! ## Backend coupon service, modelled from the spec

The API under test is external to the repository; only the tests'
assertions appear in the sources.  Sections 4.4 and 8 of the spec state
its duplicate-code behavior, which we model here. -/

/-- Modelled from the spec: a coupon record held by the backend coupon
service (the service itself is not part of the repository). -/
structure CouponRec where
  id : String
  code : String
  reusable : Bool
  detail : String
  amount : Int
deriving DecidableEq

/-- Modelled from the spec: the backend's persistent coupon state plus a
counter used to mint identifiers. -/
structure CouponStore where
  coupons : List CouponRec
  nextId : Nat

/-- Some coupon in the store already holds code `c`. -/
def codeTaken (st : CouponStore) (c : String) : Bool :=
  st.coupons.any (fun k => k.code == c)

/-- Some coupon other than `cid` already holds code `c`. -/
def codeTakenByOther (st : CouponStore) (cid c : String) : Bool :=
  st.coupons.any (fun k => k.code == c && k.id != cid)

/-- Modelled from the spec: a freshly generated system code, guaranteed
distinct from every stored code (it is longer than all of them). -/
def freshCode (st : CouponStore) : String :=
  String.mk (List.replicate (1 + (st.coupons.map (fun k => k.code.length)).sum) 'N')

/-- The JSON rendering of a coupon record in a response payload. -/
def couponToJson (k : CouponRec) : JSValue :=
  vObj [("_id", vStr k.id), ("code", vStr k.code),
        ("detail", vStr k.detail), ("amount", vNum k.amount)]

/-- A coupon-creation request (the form fields the tests submit). -/
structure CouponCreateReq where
  group : String
  is_reusable : Bool
  custom_code : String
  detail : String

/-- Modelled from the spec (§4.4): creating a **reusable** coupon whose
requested custom code already exists fails with transport 400, domain
"ERROR" and payload "COUPON_CODE_ALREADY_EXISTS"; the same collision on a
**non-reusable** coupon instead silently generates a fresh system code;
otherwise the requested code is used.  A successful creation returns the
new record in a one-element array. -/
def createCoupon (st : CouponStore) (req : CouponCreateReq) :
    CouponStore × HttpResponse :=
  if req.is_reusable && req.custom_code != "" && codeTaken st req.custom_code then
    (st, { status := 400,
           data := vObj [("status", vStr "ERROR"),
                         ("data", vStr "COUPON_CODE_ALREADY_EXISTS")] })
  else
    let code :=
      if req.custom_code != "" && !codeTaken st req.custom_code then req.custom_code
      else freshCode st
    let newCoupon : CouponRec :=
      { id := "cpn-" ++ toString st.nextId, code := code,
        reusable := req.is_reusable, detail := req.detail, amount := 0 }
    ({ coupons := st.coupons ++ [newCoupon], nextId := st.nextId + 1 },
     { status := 200,
       data := vObj [("status", vStr "OK"),
                     ("data", vArr [couponToJson newCoupon])] })

/-- A coupon-update request (the fields TC-NEG-005 submits that the model
tracks). -/
structure CouponUpdateReq where
  custom_code : String
  detail : String
  amount : Int

/-- Modelled from the spec (§4.4 `verified → updated`): updating a coupon
applies the submitted fields, except that a requested code already held by
another record is silently rejected — the original code is retained and
the call still reports success, returning the record as an object. -/
def updateCoupon (st : CouponStore) (cid : String) (req : CouponUpdateReq) :
    CouponStore × HttpResponse :=
  match st.coupons.find? (fun k => k.id == cid) with
  | none => (st, { status := 200,
                   data := vObj [("status", vStr "ERROR"), ("data", vNull)] })
  | some k =>
    let newCode :=
      if req.custom_code != "" && !codeTakenByOther st cid req.custom_code then
        req.custom_code
      else k.code
    let updated : CouponRec :=
      { k with code := newCode, detail := req.detail, amount := req.amount }
    ({ st with coupons := st.coupons.map (fun j => if j.id == cid then updated else j) },
     { status := 200,
       data := vObj [("status", vStr "OK"), ("data", couponToJson updated)] })

theorem freshCode_ne_of_taken (st : CouponStore) (c : String)
    (h : codeTaken st c = true) : freshCode st ≠ c := by
  obtain ⟨k, hk, hkc⟩ : ∃ k ∈ st.coupons, k.code = c := by
    simpa [codeTaken, List.any_eq_true] using h
  intro heq
  have hlen : (freshCode st).length =
      1 + (st.coupons.map (fun j => j.code.length)).sum := by
    have h1 : (freshCode st).length =
        (List.replicate (1 + (st.coupons.map (fun j => j.code.length)).sum) 'N').length := rfl
    rw [h1, List.length_replicate]
  have hcle : c.length ≤ (st.coupons.map (fun j => j.code.length)).sum := by
    have hmem : c.length ∈ st.coupons.map (fun j => j.code.length) := by
      rw [← hkc]
      exact List.mem_map_of_mem _ hk
    exact List.single_le_sum (fun x _ => Nat.zero_le x) _ hmem
  rw [heq] at hlen
  omega

/-- In the non-reusable case a taken custom code yields a fresh system
code in the created record. -/
theorem createCoupon_nonreusable_taken (st : CouponStore) (req : CouponCreateReq)
    (hr : req.is_reusable = false) (h : codeTaken st req.custom_code = true) :
    (createCoupon st req).2 =
      { status := 200,
        data := vObj [("status", vStr "OK"),
                      ("data", vArr [couponToJson
                        { id := "cpn-" ++ toString st.nextId, code := freshCode st,
                          reusable := req.is_reusable, detail := req.detail,
                          amount := 0 }])] } := by
  rw [createCoupon, if_neg (by simp [hr])]
  simp [h]

/-- C2: against the spec-modelled backend, for any custom code `c` already
held by an existing coupon, creating a reusable coupon requesting `c`
yields a response passing all of TC-NEG-001's duplicate assertions
(400 / "ERROR" / "COUPON_CODE_ALREADY_EXISTS"), while creating a
non-reusable coupon requesting the same `c` yields a response passing all
of TC-NEG-002's assertions (200 / "OK" / a string code different from
`c`). -/
theorem createCoupon_duplicate_code_divergence (st : CouponStore) (c : String)
    (hne : c ≠ "") (h : codeTaken st c = true) :
    tcNeg001DuplicateCheck (createCoupon st
      { group := "g", is_reusable := true, custom_code := c, detail := "d" }).2 = true ∧
    tcNeg002Check (createCoupon st
      { group := "g", is_reusable := false, custom_code := c, detail := "d" }).2 c = true := by
  constructor
  · rw [createCoupon, if_pos (by simp [h, hne])]
    rfl
  · rw [createCoupon_nonreusable_taken st _ rfl h]
    have hf : (freshCode st == c) = false := by
      rw [beq_eq_false_iff_ne]
      exact freshCode_ne_of_taken st c h
    simp +decide [tcNeg002Check, couponToJson, getField, arrayHead, arrayLength, arrayElems,
      isArray, isDefined, isStringVal, primEq, List.lookup, hf]

/-- A backend store already holding a coupon with code "DUP". -/
def storeWithCode : CouponStore :=
  { coupons := [{ id := "cpn-0", code := "DUP", reusable := true,
                  detail := "seed", amount := 0 }],
    nextId := 1 }

/-- Witness for C2 at a concrete store and code. -/
theorem createCoupon_duplicate_code_divergence_witness :
    "DUP" ≠ "" ∧ codeTaken storeWithCode "DUP" = true ∧
    tcNeg001DuplicateCheck (createCoupon storeWithCode
      { group := "g", is_reusable := true, custom_code := "DUP", detail := "d" }).2 = true :=
  ⟨by decide, by decide,
   (createCoupon_duplicate_code_divergence storeWithCode "DUP" (by decide) (by decide)).1⟩

/-- C3: against the spec-modelled backend, updating coupon `k` with a
payload requesting a code `c2` already held by another coupon yields a
response passing all of TC-NEG-005's assertions: transport 200, domain
"OK", the `code` unchanged and different from `c2`, the `_id` unchanged,
and `detail`/`amount` updated to the submitted values. -/
theorem updateCoupon_silent_rejection (st : CouponStore) (k : CouponRec) (c2 : String)
    (hfind : st.coupons.find? (fun j => j.id == k.id) = some k)
    (htaken : codeTakenByOther st k.id c2 = true)
    (hne : k.code ≠ c2) :
    tcNeg005Check (updateCoupon st k.id
      { custom_code := c2,
        detail := "Test Negativo - Actualización con Código Duplicado",
        amount := 20 }).2 k.code c2 k.id = true := by
  rw [updateCoupon, hfind]
  have hf : (k.code == c2) = false := by
    rw [beq_eq_false_iff_ne]
    exact hne
  have hsub : strContainsSub
      (vStr "Test Negativo - Actualización con Código Duplicado")
      "Código Duplicado" = true := by decide
  simp +decide [tcNeg005Check, couponToJson, getField, isDefined, primEq, List.lookup,
    htaken, hf, hsub]

/-- A backend store with the coupon under update ("cpn-1", code "ORIG")
and another coupon already holding the requested code "DUP". -/
def storeForUpdate : CouponStore :=
  { coupons := [{ id := "cpn-0", code := "DUP", reusable := true,
                  detail := "seed", amount := 0 },
                { id := "cpn-1", code := "ORIG", reusable := true,
                  detail := "orig", amount := 0 }],
    nextId := 2 }

/-- The coupon being updated in the C3 witness. -/
def couponUnderUpdate : CouponRec :=
  { id := "cpn-1", code := "ORIG", reusable := true, detail := "orig", amount := 0 }

/-- Witness for C3 at a concrete store. -/
theorem updateCoupon_silent_rejection_witness :
    codeTakenByOther storeForUpdate "cpn-1" "DUP" = true ∧
    tcNeg005Check (updateCoupon storeForUpdate "cpn-1"
      { custom_code := "DUP",
        detail := "Test Negativo - Actualización con Código Duplicado",
        amount := 20 }).2 "ORIG" "DUP" "cpn-1" = true :=
  ⟨by decide,
   updateCoupon_silent_rejection storeForUpdate couponUnderUpdate "DUP"
     (by decide) (by decide) (by decide)⟩

/-! ## HTTP API client (src/test/utils/api-client.js)

Query parameters are an ordered key-value map (a JS object's own string
keys in insertion order, as `URLSearchParams` iterates them); percent
encoding of keys and values is abstracted away, as no claim depends on
it. -/

/-- The configured client: base URL and auth token (both validated
non-empty by the constructor). -/
structure ApiClient where
  baseUrl : String
  token : String

/-- `params.token` — `none` when the caller supplied no `token` key. -/
def lookupParam (ps : List (String × String)) (k : String) : Option String :=
  ps.lookup k

/-- JS truthiness of a possibly-absent string property. -/
def truthyStrProp : Option String → Bool
  | none => false
  | some s => s != ""

/-- JS property assignment `params[k] = v`: replaces in place when the key
exists, appends otherwise. -/
def setParam : List (String × String) → String → String → List (String × String)
  | [], k, v => [(k, v)]
  | (k', v') :: rest, k, v =>
    if k' == k then (k', v) :: rest else (k', v') :: setParam rest k v

/-- `if (!params.token) params.token = this.token` (_buildUrl line 104). -/
def withDefaultToken (c : ApiClient) (ps : List (String × String)) :
    List (String × String) :=
  if truthyStrProp (lookupParam ps "token") then ps else setParam ps "token" c.token

/-- `new URLSearchParams(params).toString()`, with percent encoding
abstracted. -/
def serializeParams : List (String × String) → String
  | [] => ""
  | [(k, v)] => k ++ "=" ++ v
  | (k, v) :: rest => k ++ "=" ++ v ++ "&" ++ serializeParams rest

/-- `endpoint.includes("?")`. -/
def containsQuestionMark (endpoint : String) : Bool :=
  endpoint.toList.contains '?'

/-- `_buildUrl(endpoint, params)` (api-client.js lines 102-114). -/
def buildUrl (c : ApiClient) (endpoint : String)
    (ps : List (String × String)) : String :=
  let withToken := withDefaultToken c ps
  let queryParams := serializeParams withToken
  let separator := if containsQuestionMark endpoint then "&" else "?"
  c.baseUrl ++ endpoint ++ (if queryParams == "" then "" else separator ++ queryParams)

/-- An outgoing request: the built URL and the headers attached. -/
structure HttpRequest where
  url : String
  headers : List (String × String)

/-- The request `get(endpoint, params)` hands to the transport
(api-client.js lines 24-28). -/
def getRequest (c : ApiClient) (endpoint : String)
    (ps : List (String × String)) : HttpRequest :=
  { url := buildUrl c endpoint ps
    headers := [("X-API-Token", c.token)] }

/-- `get(endpoint, params)`: issue the request, decode the JSON body,
return `{status, data}`.  The transport is abstracted as a function from
requests to a status and a decoded body. -/
def clientGet (c : ApiClient) (transport : HttpRequest → Nat × JSValue)
    (endpoint : String) (ps : List (String × String)) : HttpResponse :=
  { status := (transport (getRequest c endpoint ps)).1
    data := (transport (getRequest c endpoint ps)).2 }

theorem setParam_of_lookup_none (ps : List (String × String)) (k v : String)
    (h : lookupParam ps k = none) : setParam ps k v = ps ++ [(k, v)] := by
  induction ps with
  | nil => rfl
  | cons p rest ih =>
    obtain ⟨k', v'⟩ := p
    rw [lookupParam, List.lookup] at h
    cases hk : k == k' with
    | true =>
      rw [hk] at h
      cases h
    | false =>
      rw [hk] at h
      have hk' : (k' == k) = false := by
        rw [beq_eq_false_iff_ne]
        intro heq
        rw [heq] at hk
        simp at hk
      rw [setParam, if_neg (by rw [hk']; simp)]
      have h' : lookupParam rest k = none := h
      rw [ih h']
      simp

theorem serializeParams_append_ne_empty (ps : List (String × String))
    (k v : String) : serializeParams (ps ++ [(k, v)]) ≠ "" := by
  induction ps with
  | nil =>
    intro h
    simp only [List.nil_append, serializeParams] at h
    have h2 := congrArg String.length h
    rw [String.length_append, String.length_append] at h2
    have h3 : ("=" : String).length = 1 := rfl
    have h4 : ("" : String).length = 0 := rfl
    omega
  | cons p rest ih =>
    obtain ⟨k', v'⟩ := p
    intro h
    obtain ⟨q, qs, hrest⟩ : ∃ q qs, rest ++ [(k, v)] = q :: qs := by
      cases hr : rest ++ [(k, v)] with
      | nil => simp at hr
      | cons q qs => exact ⟨q, qs, rfl⟩
    rw [List.cons_append, hrest] at h
    obtain ⟨qk, qv⟩ := q
    rw [show serializeParams ((k', v') :: (qk, qv) :: qs) =
        k' ++ "=" ++ v' ++ "&" ++ serializeParams ((qk, qv) :: qs) from rfl] at h
    have h2 := congrArg String.length h
    rw [String.length_append, String.length_append, String.length_append,
      String.length_append] at h2
    have h3 : ("=" : String).length = 1 := rfl
    have h4 : ("&" : String).length = 1 := rfl
    have h5 : ("" : String).length = 0 := rfl
    omega

/-- C8: when the caller supplies no `token` parameter, `get` issues a
request whose headers carry the auth token as `X-API-Token`, whose URL is
the base URL plus the endpoint plus the serialized parameters with the
token appended as a query parameter — joined with "&" when the endpoint
already contains "?" and with "?" otherwise — and returns `{status, data}`
with the transport's status and decoded body. -/
theorem clientGet_contract (c : ApiClient) (transport : HttpRequest → Nat × JSValue)
    (endpoint : String) (ps : List (String × String))
    (h : lookupParam ps "token" = none) :
    (getRequest c endpoint ps).headers = [("X-API-Token", c.token)] ∧
    (getRequest c endpoint ps).url =
      c.baseUrl ++ endpoint ++
        ((if containsQuestionMark endpoint then "&" else "?") ++
          serializeParams (ps ++ [("token", c.token)])) ∧
    clientGet c transport endpoint ps =
      { status := (transport (getRequest c endpoint ps)).1
        data := (transport (getRequest c endpoint ps)).2 } := by
  refine ⟨rfl, ?_, rfl⟩
  have htok : withDefaultToken c ps = ps ++ [("token", c.token)] := by
    rw [withDefaultToken, if_neg (by rw [h]; simp [truthyStrProp]),
      setParam_of_lookup_none ps "token" c.token h]
  rw [getRequest]
  simp only [buildUrl, htok]
  rw [if_neg]
  intro hq
  exact serializeParams_append_ne_empty ps "token" c.token (by simpa using hq)

/-- A concrete client configuration for the C8 witness. -/
def clientEx : ApiClient := { baseUrl := "https://api.example", token := "tkn" }

/-- Witness for C8: a concrete GET with `limit`/`offset` parameters and no
caller-supplied token builds the expected URL. -/
theorem clientGet_contract_witness :
    lookupParam [("limit", "50"), ("offset", "0")] "token" = none ∧
    (getRequest clientEx "/api/coupon" [("limit", "50"), ("offset", "0")]).url =
      "https://api.example/api/coupon" ++
        ("?" ++ serializeParams
          ([("limit", "50"), ("offset", "0")] ++ [("token", "tkn")])) :=
  ⟨rfl,
   (clientGet_contract clientEx (fun _ => (200, vNull)) "/api/coupon"
     [("limit", "50"), ("offset", "0")] rfl).2.1⟩

/-! ## Random accessor (test-data-manager.js lines 80-84)

`Math.random()` is modelled as a rational draw `r` with `0 ≤ r < 1`;
`Math.floor` on the nonnegative product is the natural floor. -/

/-- `Math.floor(r * n)` for the draw `r` over an index of length `n`. -/
def selectedIndex (n : Nat) (r : ℚ) : Nat := ⌊r * (n : ℚ)⌋₊

/-- `getRandomGroupId()`: null on an empty index, otherwise the entry at
the floored random position. -/
def getRandomGroupId (st : TDMState) (r : ℚ) : Option JSValue :=
  if st.groupIds.length = 0 then none
  else st.groupIds[selectedIndex st.groupIds.length r]?

theorem selectedIndex_lt (n : Nat) (r : ℚ) (hn : n ≠ 0)
    (h0 : 0 ≤ r) (h1 : r < 1) : selectedIndex n r < n := by
  have hnpos : (0 : ℚ) < (n : ℚ) := by
    exact_mod_cast Nat.pos_of_ne_zero hn
  rw [selectedIndex, Nat.floor_lt (mul_nonneg h0 (le_of_lt hnpos))]
  calc r * (n : ℚ) < 1 * (n : ℚ) := mul_lt_mul_of_pos_right h1 hnpos
  _ = (n : ℚ) := one_mul _

/-- C9: the random accessor returns `none` exactly on an empty index;
on a non-empty index it returns the entry at the selected position, which
is always in range; and position `i` is selected exactly when the draw
falls in `[i/n, (i+1)/n)` — intervals of equal length `1/n`, so the
choice is uniform for a uniform draw. -/
theorem getRandomGroupId_contract (st : TDMState) (r : ℚ)
    (h0 : 0 ≤ r) (h1 : r < 1) :
    (getRandomGroupId st r = none ↔ st.groupIds = []) ∧
    (∀ v, getRandomGroupId st r = some v → v ∈ st.groupIds) ∧
    (∀ i, i < st.groupIds.length →
      (selectedIndex st.groupIds.length r = i ↔
        (i : ℚ) / (st.groupIds.length : ℚ) ≤ r ∧
          r < ((i : ℚ) + 1) / (st.groupIds.length : ℚ))) := by
  refine ⟨⟨?_, ?_⟩, ?_, ?_⟩
  · intro hnone
    by_cases hlen : st.groupIds.length = 0
    · exact List.length_eq_zero.1 hlen
    · exfalso
      rw [getRandomGroupId, if_neg hlen,
        List.getElem?_eq_getElem (selectedIndex_lt _ r hlen h0 h1)] at hnone
      cases hnone
  · intro hempty
    rw [getRandomGroupId, if_pos (by rw [hempty]; rfl)]
  · intro v hv
    by_cases hlen : st.groupIds.length = 0
    · rw [getRandomGroupId, if_pos hlen] at hv
      cases hv
    · rw [getRandomGroupId, if_neg hlen,
        List.getElem?_eq_getElem (selectedIndex_lt _ r hlen h0 h1)] at hv
      cases hv
      exact List.getElem_mem _
  · intro i hi
    have hnpos : (0 : ℚ) < (st.groupIds.length : ℚ) := by
      exact_mod_cast lt_of_le_of_lt (Nat.zero_le i) hi
    have hr0 : 0 ≤ r * (st.groupIds.length : ℚ) := mul_nonneg h0 (le_of_lt hnpos)
    constructor
    · intro hsel
      rw [selectedIndex, Nat.floor_eq_iff hr0] at hsel
      constructor
      · rw [div_le_iff₀ hnpos]
        exact hsel.1
      · rw [lt_div_iff₀ hnpos]
        exact hsel.2
    · intro hint
      rw [selectedIndex, Nat.floor_eq_iff hr0]
      constructor
      · rw [div_le_iff₀ hnpos] at hint
        exact hint.1
      · rw [lt_div_iff₀ hnpos] at hint
        exact hint.2

/-- A manager state with two group identifiers, for the C9 witness. -/
def twoGroupState : TDMState := ⟨[vStr "g1", vStr "g2"], [], []⟩

/-- Witness for C9 at a concrete state and draw. -/
theorem getRandomGroupId_contract_witness :
    (0 : ℚ) ≤ 0 ∧ (0 : ℚ) < 1 ∧
    (getRandomGroupId twoGroupState 0 = none ↔ twoGroupState.groupIds = []) :=
  ⟨le_refl 0, by norm_num,
   (getRandomGroupId_contract twoGroupState 0 (le_refl 0) (by norm_num)).1⟩

/-! ## Accessor copy semantics (test-data-manager.js lines 56-74)

`getAllGroupIds`, `getAllCouponCodes` and `getAllCoupons` return
`[...field]` — a fresh array.  To state the aliasing claim we model JS
arrays as references into an explicit heap of arrays: the manager holds
three references, an accessor allocates a new cell holding a copy of the
contents, and the caller may then overwrite the returned cell. -/

/-- A heap of JS arrays; a reference is an index into it. -/
structure ArrayHeap where
  arrays : List (List JSValue)

/-- Allocate a new array cell, returning the heap and the fresh
reference. -/
def heapAlloc (h : ArrayHeap) (contents : List JSValue) : ArrayHeap × Nat :=
  ({ arrays := h.arrays ++ [contents] }, h.arrays.length)

/-- Dereference an array. -/
def heapRead (h : ArrayHeap) (ref : Nat) : List JSValue :=
  h.arrays.getD ref []

/-- Overwrite the contents of an array cell (the caller mutating the
array it received). -/
def heapWrite (h : ArrayHeap) (ref : Nat) (contents : List JSValue) : ArrayHeap :=
  { arrays := h.arrays.set ref contents }

/-- The `TestDataManager` fields as references into the heap. -/
structure ManagerRefs where
  groupIdsRef : Nat
  couponCodesRef : Nat
  couponsRef : Nat

/-- The manager's references point into the heap. -/
def refsValid (h : ArrayHeap) (m : ManagerRefs) : Prop :=
  m.groupIdsRef < h.arrays.length ∧ m.couponCodesRef < h.arrays.length ∧
    m.couponsRef < h.arrays.length

/-- `getAllGroupIds()`: `return [...this.groupIds]`. -/
def getAllGroupIds (h : ArrayHeap) (m : ManagerRefs) : ArrayHeap × Nat :=
  heapAlloc h (heapRead h m.groupIdsRef)

/-- `getAllCouponCodes()`: `return [...this.couponCodes]`. -/
def getAllCouponCodes (h : ArrayHeap) (m : ManagerRefs) : ArrayHeap × Nat :=
  heapAlloc h (heapRead h m.couponCodesRef)

/-- `getAllCoupons()`: `return [...this.coupons]`. -/
def getAllCoupons (h : ArrayHeap) (m : ManagerRefs) : ArrayHeap × Nat :=
  heapAlloc h (heapRead h m.couponsRef)

/-- The counts reported by `getStats()` (lines 110-116). -/
structure TDMStats where
  totalCoupons : Nat
  uniqueGroupIds : Nat
  uniqueCouponCodes : Nat
deriving DecidableEq

/-- `getStats()`. -/
def getStats (h : ArrayHeap) (m : ManagerRefs) : TDMStats :=
  { totalCoupons := (heapRead h m.couponsRef).length
    uniqueGroupIds := (heapRead h m.groupIdsRef).length
    uniqueCouponCodes := (heapRead h m.couponCodesRef).length }

/-- The heap after the caller overwrites the array an accessor returned. -/
def mutateReturned (h : ArrayHeap) (m : ManagerRefs)
    (accessor : ArrayHeap → ManagerRefs → ArrayHeap × Nat)
    (mutated : List JSValue) : ArrayHeap :=
  heapWrite (accessor h m).1 (accessor h m).2 mutated

theorem heapRead_alloc_fresh (h : ArrayHeap) (c : List JSValue) :
    heapRead (heapAlloc h c).1 (heapAlloc h c).2 = c := by
  simp [heapAlloc, heapRead, List.getD_eq_getElem?_getD]

theorem heapRead_alloc_old (h : ArrayHeap) (c : List JSValue) (r : Nat)
    (hr : r < h.arrays.length) : heapRead (heapAlloc h c).1 r = heapRead h r := by
  simp [heapAlloc, heapRead, List.getD_eq_getElem?_getD, List.getElem?_append_left hr]

theorem heapRead_write_ne (h : ArrayHeap) (r r' : Nat) (c : List JSValue)
    (hne : r ≠ r') : heapRead (heapWrite h r c) r' = heapRead h r' := by
  simp [heapWrite, heapRead, List.getD_eq_getElem?_getD, List.getElem?_set_ne hne]

/-- Mutating the cell returned by an `[...x]`-style accessor leaves every
valid manager reference reading its old contents. -/
theorem heapRead_mutate_alloc (h : ArrayHeap) (ref r : Nat)
    (mutated : List JSValue) (hr : r < h.arrays.length) :
    heapRead (heapWrite (heapAlloc h (heapRead h ref)).1
      (heapAlloc h (heapRead h ref)).2 mutated) r = heapRead h r := by
  rw [heapRead_write_ne _ _ _ _ (by simp [heapAlloc]; omega),
    heapRead_alloc_old _ _ _ hr]

/-- C10: each accessor returns a fresh copy of its index — overwriting the
returned array changes none of the three internal indexes, leaves a
repeated accessor call returning the original contents, and leaves the
`getStats` counts unchanged. -/
theorem accessors_return_fresh_copies (h : ArrayHeap) (m : ManagerRefs)
    (mutated : List JSValue) (hv : refsValid h m) :
    (heapRead (getAllGroupIds h m).1 (getAllGroupIds h m).2 =
        heapRead h m.groupIdsRef ∧
      heapRead (mutateReturned h m getAllGroupIds mutated) m.groupIdsRef =
        heapRead h m.groupIdsRef ∧
      heapRead (mutateReturned h m getAllGroupIds mutated) m.couponCodesRef =
        heapRead h m.couponCodesRef ∧
      heapRead (mutateReturned h m getAllGroupIds mutated) m.couponsRef =
        heapRead h m.couponsRef ∧
      heapRead (getAllGroupIds (mutateReturned h m getAllGroupIds mutated) m).1
          (getAllGroupIds (mutateReturned h m getAllGroupIds mutated) m).2 =
        heapRead h m.groupIdsRef ∧
      getStats (mutateReturned h m getAllGroupIds mutated) m = getStats h m) ∧
    (heapRead (getAllCouponCodes h m).1 (getAllCouponCodes h m).2 =
        heapRead h m.couponCodesRef ∧
      heapRead (mutateReturned h m getAllCouponCodes mutated) m.groupIdsRef =
        heapRead h m.groupIdsRef ∧
      heapRead (mutateReturned h m getAllCouponCodes mutated) m.couponCodesRef =
        heapRead h m.couponCodesRef ∧
      heapRead (mutateReturned h m getAllCouponCodes mutated) m.couponsRef =
        heapRead h m.couponsRef ∧
      heapRead (getAllCouponCodes (mutateReturned h m getAllCouponCodes mutated) m).1
          (getAllCouponCodes (mutateReturned h m getAllCouponCodes mutated) m).2 =
        heapRead h m.couponCodesRef ∧
      getStats (mutateReturned h m getAllCouponCodes mutated) m = getStats h m) ∧
    (heapRead (getAllCoupons h m).1 (getAllCoupons h m).2 =
        heapRead h m.couponsRef ∧
      heapRead (mutateReturned h m getAllCoupons mutated) m.groupIdsRef =
        heapRead h m.groupIdsRef ∧
      heapRead (mutateReturned h m getAllCoupons mutated) m.couponCodesRef =
        heapRead h m.couponCodesRef ∧
      heapRead (mutateReturned h m getAllCoupons mutated) m.couponsRef =
        heapRead h m.couponsRef ∧
      heapRead (getAllCoupons (mutateReturned h m getAllCoupons mutated) m).1
          (getAllCoupons (mutateReturned h m getAllCoupons mutated) m).2 =
        heapRead h m.couponsRef ∧
      getStats (mutateReturned h m getAllCoupons mutated) m = getStats h m) := by
  obtain ⟨hg, hk, hc⟩ := hv
  refine ⟨⟨heapRead_alloc_fresh _ _,
      heapRead_mutate_alloc h m.groupIdsRef m.groupIdsRef mutated hg,
      heapRead_mutate_alloc h m.groupIdsRef m.couponCodesRef mutated hk,
      heapRead_mutate_alloc h m.groupIdsRef m.couponsRef mutated hc,
      (heapRead_alloc_fresh (mutateReturned h m getAllGroupIds mutated) _).trans
        (heapRead_mutate_alloc h m.groupIdsRef m.groupIdsRef mutated hg),
      ?_⟩,
    ⟨heapRead_alloc_fresh _ _,
      heapRead_mutate_alloc h m.couponCodesRef m.groupIdsRef mutated hg,
      heapRead_mutate_alloc h m.couponCodesRef m.couponCodesRef mutated hk,
      heapRead_mutate_alloc h m.couponCodesRef m.couponsRef mutated hc,
      (heapRead_alloc_fresh (mutateReturned h m getAllCouponCodes mutated) _).trans
        (heapRead_mutate_alloc h m.couponCodesRef m.couponCodesRef mutated hk),
      ?_⟩,
    ⟨heapRead_alloc_fresh _ _,
      heapRead_mutate_alloc h m.couponsRef m.groupIdsRef mutated hg,
      heapRead_mutate_alloc h m.couponsRef m.couponCodesRef mutated hk,
      heapRead_mutate_alloc h m.couponsRef m.couponsRef mutated hc,
      (heapRead_alloc_fresh (mutateReturned h m getAllCoupons mutated) _).trans
        (heapRead_mutate_alloc h m.couponsRef m.couponsRef mutated hc),
      ?_⟩⟩
  · simp only [getStats, TDMStats.mk.injEq]
    exact ⟨congrArg List.length (heapRead_mutate_alloc h m.groupIdsRef m.couponsRef mutated hc),
      congrArg List.length (heapRead_mutate_alloc h m.groupIdsRef m.groupIdsRef mutated hg),
      congrArg List.length (heapRead_mutate_alloc h m.groupIdsRef m.couponCodesRef mutated hk)⟩
  · simp only [getStats, TDMStats.mk.injEq]
    exact ⟨congrArg List.length (heapRead_mutate_alloc h m.couponCodesRef m.couponsRef mutated hc),
      congrArg List.length (heapRead_mutate_alloc h m.couponCodesRef m.groupIdsRef mutated hg),
      congrArg List.length (heapRead_mutate_alloc h m.couponCodesRef m.couponCodesRef mutated hk)⟩
  · simp only [getStats, TDMStats.mk.injEq]
    exact ⟨congrArg List.length (heapRead_mutate_alloc h m.couponsRef m.couponsRef mutated hc),
      congrArg List.length (heapRead_mutate_alloc h m.couponsRef m.groupIdsRef mutated hg),
      congrArg List.length (heapRead_mutate_alloc h m.couponsRef m.couponCodesRef mutated hk)⟩

/-- A concrete heap and manager for the C10 witness. -/
def heapEx : ArrayHeap := ⟨[[vStr "g"], [vStr "c"], [vNull]]⟩

/-- The manager's references into `heapEx`. -/
def managerEx : ManagerRefs := ⟨0, 1, 2⟩

/-- Witness for C10: after overwriting the array returned by
`getAllGroupIds`, the manager's group index still reads its old
contents. -/
theorem accessors_return_fresh_copies_witness :
    refsValid heapEx managerEx ∧
    heapRead (mutateReturned heapEx managerEx getAllGroupIds [vStr "X"])
      managerEx.groupIdsRef = heapRead heapEx managerEx.groupIdsRef :=
  ⟨⟨by decide, by decide, by decide⟩,
   (accessors_return_fresh_copies heapEx managerEx [vStr "X"]
     ⟨by decide, by decide, by decide⟩).1.2.1⟩
